import Mathlib

/-!
Verification of the dynr53 update handler (`lambda/index.py`).

The handler is embedded shallowly: the Route 53 state is explicit, every
provider interaction is recorded in a call trace, and each Python function
of the source becomes a Lean function of the same name.  FastAPI renders an
`HTTPException` as a response carrying the exception's `detail` string; the
embedding records status, detail text and extra headers.  IPv6 literals are
out of scope (the source's own TODO), so the IP type models IPv4.
-/

namespace Dynr53

/-- An IPv4 address as carried by pydantic's `IPvAnyAddress` (IPv4 case):
four decimal octets.  The parser below only ever produces octets below 256. -/
structure IPv4 where
  a : Nat
  b : Nat
  c : Nat
  d : Nat
deriving DecidableEq

/-- Splitting a character list on the dot character, mirroring Python's
`str.split('.')` (no maxsplit): `"a.b"` gives `["a", "b"]`, `""` gives `[""]`. -/
def splitDots : List Char → List (List Char)
  | [] => [[]]
  | c :: cs =>
      if c = '.' then [] :: splitDots cs
      else
        match splitDots cs with
        | [] => [[c]]
        | p :: ps => (c :: p) :: ps

/-- Digit test for octet characters. -/
def isDigitChar (c : Char) : Bool := ('0' ≤ c) && (c ≤ '9')

/-- Decimal value of a digit string. -/
def octetVal (s : List Char) : Nat :=
  s.foldl (fun acc c => acc * 10 + (c.toNat - 48)) 0

/-- Python `ipaddress` octet parsing: only decimal digits, at most three
characters, no leading zero unless the octet is exactly "0", value at
most 255. -/
def parseOctet (s : List Char) : Option Nat :=
  if s = [] then none
  else if !s.all isDigitChar then none
  else if 3 < s.length then none
  else if 1 < s.length ∧ s.head? = some '0' then none
  else if 255 < octetVal s then none
  else some (octetVal s)

/-- Python `ipaddress.IPv4Address` parsing of a dotted-quad literal:
exactly four octets separated by dots, each octet as in `parseOctet`. -/
def parseIPv4 (s : String) : Option IPv4 :=
  match (splitDots s.data).map parseOctet with
  | [some a, some b, some c, some d] => some ⟨a, b, c, d⟩
  | _ => none

/-- Canonical textual form of an IPv4 address, Python's `str(ip)`. -/
def ipToString (ip : IPv4) : String :=
  Nat.repr ip.a ++ "." ++ Nat.repr ip.b ++ "." ++ Nat.repr ip.c ++ "." ++ Nat.repr ip.d

/-- An HTTP response as observed by the client; for an `HTTPException` the
body field holds the exception's `detail` string. -/
structure Response where
  status : Nat
  body : String
  headers : List (String × String)
deriving DecidableEq

/-- HTTP Basic credentials extracted by `HTTPBasic`. -/
structure HTTPBasicCredentials where
  username : String
  password : String
deriving DecidableEq

/-- The JSON object stored under `dynr53/users/admin` in the secret store:
a `username` field and a `password` field. -/
structure AdminSecret where
  username : String
  password : String
deriving DecidableEq

/-- A record set as held by Route 53: name (trailing-dot normalized), type,
TTL and the list of record values. -/
structure ResourceRecordSet where
  name : String
  type : String
  ttl : Nat
  values : List String
deriving DecidableEq

/-- A hosted zone: opaque id, name (Route 53 stores names with the trailing
dot) and its record sets. -/
structure HostedZone where
  id : String
  name : String
  records : List ResourceRecordSet
deriving DecidableEq

/-- The DNS provider's state: the list of hosted zones. -/
abbrev R53State := List HostedZone

/-- One call made to an external provider (secret store or Route 53). -/
inductive ProviderCall where
  | getSecret (name : String)
  | listHostedZonesByName (dnsName : String)
  | listHostedZones
  | listResourceRecordSets (zoneId : String) (startName : String) (startType : String)
  | changeResourceRecordSets (zoneId : String) (action : String) (name : String)
      (rtype : String) (ttl : Nat) (values : List String)
deriving DecidableEq

/-- Calls that hit the DNS provider (as opposed to the secret store). -/
def ProviderCall.isDnsCall : ProviderCall → Bool
  | .getSecret _ => false
  | _ => true

/-- Calls that mutate provider state. -/
def ProviderCall.isMutation : ProviderCall → Bool
  | .changeResourceRecordSets _ _ _ _ _ _ => true
  | _ => false

/-- Lowercasing of a header name, character by character. -/
def lowerName (s : String) : String := ⟨s.data.map Char.toLower⟩

/-- Case-insensitive header lookup as performed by starlette's `Headers`
mapping: the first header whose lowercased name matches the (lowercase)
key. -/
def headerGet (headers : List (String × String)) (key : String) : Option String :=
  (headers.find? (fun p => lowerName p.1 == key)).map (fun p => p.2)

/-- Name of the trusted forwarding header consulted by the handler. -/
def xForwardedFor : String := "x-forwarded-for"

/-- Python `get_admin_password` under `functools.lru_cache`: the cache slot
holds a previous successful result; an exception (store unreachable or
secret malformed, modelled as `store = none`) is never cached.  Returns the
fetched password (`none` on failure), the cache afterwards, and the calls
made to the secret store. -/
def get_admin_password (store : Option AdminSecret) (cache : Option String) :
    Option String × Option String × List ProviderCall :=
  match cache with
  | some pw => (some pw, some pw, [])
  | none =>
      match store with
      | some secret =>
          (some secret.password, some secret.password, [.getSecret "dynr53/users/admin"])
      | none => (none, none, [.getSecret "dynr53/users/admin"])

/-- Response raised on authentication failure. -/
def badauthResponse : Response :=
  ⟨401, "badauth", [("WWW-Authenticate", "Basic")]⟩

/-- Python `validate_credentials` given the fetched admin password:
`secrets.compare_digest` on UTF-8 encodings is string equality; the
username is compared against the literal `admin`. -/
def validate_credentials (adminPassword : String) (credentials : HTTPBasicCredentials) :
    Except Response Unit :=
  let username_checks := "admin" == credentials.username
  let password_checks := adminPassword == credentials.password
  if username_checks && password_checks then .ok () else .error badauthResponse

/-- Response raised when no forwarding header is present. -/
def ipUndeterminableResponse : Response :=
  ⟨400, "IP can not be determined from x-forward-for header", []⟩

/-- Response produced by starlette for an exception the handler does not
catch (for example pydantic's `ValueError` on a non-IP header value: only
`KeyError` is handled in `get_ip_from_headers`). -/
def internalServerError : Response := ⟨500, "Internal Server Error", []⟩

/-- Python `get_ip_from_headers`: read the `x-forwarded-for` header and
parse its entire value with `IPvAnyAddress`; a missing header (KeyError)
becomes HTTP 400, an unparsable value escapes as a server error. -/
def get_ip_from_headers (headers : List (String × String)) : Except Response IPv4 :=
  match headerGet headers xForwardedFor with
  | none => .error ipUndeterminableResponse
  | some v =>
      match parseIPv4 v with
      | some ip => .ok ip
      | none => .error internalServerError

/-- Suffix of a character list after its first dot, if any. -/
def afterFirstDot : List Char → Option (List Char)
  | [] => none
  | c :: cs => if c = '.' then some cs else afterFirstDot cs

/-- Python `hostname.split('.', 1)[-1]`: everything after the first dot,
or the whole string when it has no dot. -/
def zoneNameOf (hostname : String) : String :=
  match afterFirstDot hostname.data with
  | some cs => ⟨cs⟩
  | none => hostname

/-- Response raised when the candidate zone is not found. -/
def zoneNotFoundResponse (zoneName : String) : Response :=
  ⟨400, "Hosted zone " ++ zoneName ++ " not found", []⟩

/-- Python `get_hosted_zone_id_from_fqdn`, decision part: filter the hosted
zones with the jmespath expression `HostedZones[?Name == '<zone_name>.']`
(note the appended trailing dot) and take the first match's id; an empty
match raises HTTP 400.  The two listing calls it performs are emitted by
`update` below. -/
def get_hosted_zone_id_from_fqdn (st : R53State) (hostname : String) :
    Except Response String :=
  match (st.filter (fun z => z.name == zoneNameOf hostname ++ ".")).head? with
  | some z => .ok z.id
  | none => .error (zoneNotFoundResponse (zoneNameOf hostname))

/-- Zone-listing calls performed by `get_hosted_zone_id_from_fqdn`
regardless of its outcome. -/
def zoneCalls (hostname : String) : List ProviderCall :=
  [.listHostedZonesByName (zoneNameOf hostname), .listHostedZones]

/-- First zone with the given id, as Route 53 resolves a `HostedZoneId`. -/
def findZone (st : R53State) (zoneId : String) : Option HostedZone :=
  st.find? (fun z => z.id == zoneId)

/-- Python `is_existing_record_exists`, decision part: `list_resource_record_sets`
is modelled as returning every record set of the zone (pagination and the
300-record truncation are elided; `StartRecordName`/`StartRecordType` fix
only the starting position and are recorded in the call trace by `update`).
The jmespath expression keeps record sets whose `Name` equals
`hostname ++ "."` — any type — holding a value equal to `str(ip)`. -/
def is_existing_record_exists (st : R53State) (hostname : String) (zoneId : String)
    (ip : IPv4) : Bool :=
  let rrsets := match findZone st zoneId with
    | some z => z.records
    | none => []
  (rrsets.filter (fun r => r.name == hostname ++ ".")).any
    (fun r => r.values.any (fun v => v == ipToString ip))

/-- Record-listing call performed by `is_existing_record_exists`. -/
def recordCalls (hostname : String) (zoneId : String) : List ProviderCall :=
  [.listResourceRecordSets zoneId hostname "A"]

/-- Fixed TTL used for every upsert (`dns_ttl = 60` in the source). -/
def dns_ttl : Nat := 60

/-- Effect of a Route 53 UPSERT on one zone: if the zone has the targeted
id, the record set keyed by (name, type) is replaced; Route 53 normalizes
the record name server-side by appending the trailing dot. -/
def upsertZone (zoneId : String) (name : String) (rtype : String) (ttl : Nat)
    (values : List String) (z : HostedZone) : HostedZone :=
  if z.id == zoneId then
    { z with records :=
        (z.records.filter (fun r => !(r.name == name ++ "." && r.type == rtype))) ++
          [⟨name ++ ".", rtype, ttl, values⟩] }
  else z

/-- Effect of a Route 53 UPSERT on the provider state. -/
def applyUpsert (st : R53State) (zoneId : String) (name : String) (rtype : String)
    (ttl : Nat) (values : List String) : R53State :=
  st.map (upsertZone zoneId name rtype ttl values)

/-- Python `update_r53_record`: a single UPSERT of a single-value A record
for the hostname with TTL 60. -/
def update_r53_record (st : R53State) (hostname : String) (zoneId : String)
    (ip : IPv4) : R53State :=
  applyUpsert st zoneId hostname "A" dns_ttl [ipToString ip]

/-- The change call emitted by `update_r53_record`. -/
def upsertCall (hostname : String) (zoneId : String) (ip : IPv4) : ProviderCall :=
  .changeResourceRecordSets zoneId "UPSERT" hostname "A" dns_ttl [ipToString ip]

/-- Response produced by FastAPI when the `myip` query parameter fails
pydantic validation. -/
def unprocessableResponse : Response := ⟨422, "Unprocessable Entity", []⟩

/-- Target-IP determination: FastAPI parses a present `myip` query
parameter as `IPvAnyAddress` (validation failure is a 422 before the
handler body runs); when `myip` is absent — an `IPvAnyAddress` instance is
always truthy, so `if not myip` tests for `None` — the handler falls back
to `get_ip_from_headers` (source lines 182–183). -/
def resolveTargetIp (myip : Option String) (headers : List (String × String)) :
    Except Response IPv4 :=
  match myip with
  | some s =>
      match parseIPv4 s with
      | some ip => .ok ip
      | none => .error unprocessableResponse
  | none => get_ip_from_headers headers

/-- An update request as it reaches the application: query parameters,
raw headers and the Basic credentials. -/
structure UpdateRequest where
  hostname : String
  myip : Option String
  headers : List (String × String)
  credentials : HTTPBasicCredentials
deriving DecidableEq

/-- Process-lifetime state: the lru_cache slot of `get_admin_password` and
the DNS provider's state. -/
structure ProcState where
  cachedPassword : Option String
  r53 : R53State
deriving DecidableEq

/-- Outcome of one request: the response, the state afterwards, and the
provider calls made, in order. -/
structure RunResult where
  response : Response
  state : ProcState
  calls : List ProviderCall
deriving DecidableEq

/-- Body of the `/nic/update` handler after its dependencies have run
(source lines 182–195): determine the target IP, resolve the hosted zone,
then either report `nochg` or upsert and report `good`.  Returns the
response, the DNS state afterwards, and the Route 53 calls made. -/
def updateCore (req : UpdateRequest) (r53 : R53State) :
    Response × R53State × List ProviderCall :=
  match resolveTargetIp req.myip req.headers with
  | .error resp => (resp, r53, [])
  | .ok ip =>
      match get_hosted_zone_id_from_fqdn r53 req.hostname with
      | .error resp => (resp, r53, zoneCalls req.hostname)
      | .ok zoneId =>
          if is_existing_record_exists r53 req.hostname zoneId ip then
            (⟨200, "nochg " ++ ipToString ip, []⟩, r53,
              zoneCalls req.hostname ++ recordCalls req.hostname zoneId)
          else
            (⟨200, "good " ++ ipToString ip, []⟩,
              update_r53_record r53 req.hostname zoneId ip,
              zoneCalls req.hostname ++ recordCalls req.hostname zoneId
                ++ [upsertCall req.hostname zoneId ip])

/-- The `/nic/update` request (source lines 175–195) end to end, with its
`validate_credentials` dependency: fetch the admin password (a failed fetch
escapes as a server error and is not cached), authenticate, then run the
handler body. -/
def update (store : Option AdminSecret) (req : UpdateRequest) (ps : ProcState) :
    RunResult :=
  match get_admin_password store ps.cachedPassword with
  | (none, cache, calls0) => ⟨internalServerError, ⟨cache, ps.r53⟩, calls0⟩
  | (some pw, cache, calls0) =>
      match validate_credentials pw req.credentials with
      | .error resp => ⟨resp, ⟨cache, ps.r53⟩, calls0⟩
      | .ok _ =>
          let res := updateCore req ps.r53
          ⟨res.1, ⟨cache, res.2.1⟩, calls0 ++ res.2.2⟩

/-- Authentication succeeds: the username is the literal `admin` and the
password fetch yields exactly the provided password. -/
def authOk (store : Option AdminSecret) (cache : Option String)
    (c : HTTPBasicCredentials) : Prop :=
  c.username = "admin" ∧ (get_admin_password store cache).1 = some c.password

/-- Modelled from the spec: "the first value of a trusted forwarding header
is parsed as an IP literal ... first value used".  The first value of a
comma-separated header value: the characters before the first comma. -/
def specFirstForwardedValue (v : String) : String :=
  ⟨v.data.takeWhile (fun c => c ≠ ',')⟩

/-- Test whether a string ends in two consecutive dots.  Route 53 zone
names always end in exactly one dot, so a stored zone name never satisfies
this. -/
def endsTwoDots (s : String) : Bool :=
  match s.data.reverse with
  | '.' :: '.' :: _ => true
  | _ => false

/-! Helper lemmas about the embedded functions. -/

theorem gap_success (store : Option AdminSecret) (cache : Option String) (pw : String)
    (h : (get_admin_password store cache).1 = some pw) :
    get_admin_password store cache =
      (some pw, some pw, (get_admin_password store cache).2.2) := by
  cases cache with
  | some pw0 =>
      simp only [get_admin_password, Option.some.injEq] at h
      simp [get_admin_password, h]
  | none =>
      cases store with
      | some sec =>
          simp only [get_admin_password, Option.some.injEq] at h
          simp [get_admin_password, h]
      | none => simp [get_admin_password] at h

theorem gap_calls (store : Option AdminSecret) (cache : Option String) :
    (get_admin_password store cache).2.2 = [] ∨
      (get_admin_password store cache).2.2 = [ProviderCall.getSecret "dynr53/users/admin"] := by
  cases cache with
  | some pw0 => exact Or.inl rfl
  | none => cases store with
    | some sec => exact Or.inr rfl
    | none => exact Or.inr rfl

theorem gap_calls_no_dns (store : Option AdminSecret) (cache : Option String) :
    ((get_admin_password store cache).2.2).filter (fun c => c.isDnsCall) = [] := by
  rcases gap_calls store cache with h | h <;> simp [h, ProviderCall.isDnsCall]

theorem gap_calls_no_mutation (store : Option AdminSecret) (cache : Option String) :
    ((get_admin_password store cache).2.2).filter (fun c => c.isMutation) = [] := by
  rcases gap_calls store cache with h | h <;> simp [h, ProviderCall.isMutation]

theorem update_authed (store : Option AdminSecret) (req : UpdateRequest) (ps : ProcState)
    (hu : req.credentials.username = "admin")
    (hp : (get_admin_password store ps.cachedPassword).1 = some req.credentials.password) :
    update store req ps =
      ⟨(updateCore req ps.r53).1,
        ⟨some req.credentials.password, (updateCore req ps.r53).2.1⟩,
        (get_admin_password store ps.cachedPassword).2.2 ++ (updateCore req ps.r53).2.2⟩ := by
  have hg := gap_success store ps.cachedPassword req.credentials.password hp
  rw [update, hg]
  simp [validate_credentials, hu]

theorem update_badauth_eq (store : Option AdminSecret) (req : UpdateRequest)
    (ps : ProcState) (pw : String)
    (hp : (get_admin_password store ps.cachedPassword).1 = some pw)
    (hbad : ¬(req.credentials.username = "admin" ∧ req.credentials.password = pw)) :
    update store req ps =
      ⟨badauthResponse, ⟨some pw, ps.r53⟩,
        (get_admin_password store ps.cachedPassword).2.2⟩ := by
  have hg := gap_success store ps.cachedPassword pw hp
  rw [update, hg]
  have hcond : (("admin" == req.credentials.username) && (pw == req.credentials.password))
      = false := by
    by_cases h1 : req.credentials.username = "admin"
    · by_cases h2 : req.credentials.password = pw
      · exact absurd ⟨h1, h2⟩ hbad
      · have hpw : (pw == req.credentials.password) = false := by
          simp only [beq_eq_false_iff_ne, ne_eq]
          exact fun h => h2 h.symm
        simp [hpw]
    · have hun : ("admin" == req.credentials.username) = false := by
        simp only [beq_eq_false_iff_ne, ne_eq]
        exact fun h => h1 h.symm
      simp [hun]
  simp [validate_credentials, hcond]

theorem updateCore_ip_error (req : UpdateRequest) (r53 : R53State) (resp : Response)
    (h : resolveTargetIp req.myip req.headers = .error resp) :
    updateCore req r53 = (resp, r53, []) := by
  simp [updateCore, h]

theorem updateCore_zone_error (req : UpdateRequest) (r53 : R53State) (ip : IPv4)
    (resp : Response)
    (hip : resolveTargetIp req.myip req.headers = .ok ip)
    (hz : get_hosted_zone_id_from_fqdn r53 req.hostname = .error resp) :
    updateCore req r53 = (resp, r53, zoneCalls req.hostname) := by
  simp [updateCore, hip, hz]

theorem updateCore_nochg (req : UpdateRequest) (r53 : R53State) (ip : IPv4) (zid : String)
    (hip : resolveTargetIp req.myip req.headers = .ok ip)
    (hz : get_hosted_zone_id_from_fqdn r53 req.hostname = .ok zid)
    (he : is_existing_record_exists r53 req.hostname zid ip = true) :
    updateCore req r53 =
      (⟨200, "nochg " ++ ipToString ip, []⟩, r53,
        zoneCalls req.hostname ++ recordCalls req.hostname zid) := by
  simp [updateCore, hip, hz, he]

theorem upsertZone_id (zid n rtype : String) (ttl : Nat) (v : List String)
    (z : HostedZone) : (upsertZone zid n rtype ttl v z).id = z.id := by
  unfold upsertZone
  split <;> rfl

theorem upsertZone_name (zid n rtype : String) (ttl : Nat) (v : List String)
    (z : HostedZone) : (upsertZone zid n rtype ttl v z).name = z.name := by
  unfold upsertZone
  split <;> rfl

theorem zoneId_applyUpsert (st : R53State) (zid n rtype : String) (ttl : Nat)
    (v : List String) (hostname : String) :
    get_hosted_zone_id_from_fqdn (applyUpsert st zid n rtype ttl v) hostname =
      get_hosted_zone_id_from_fqdn st hostname := by
  unfold get_hosted_zone_id_from_fqdn applyUpsert
  rw [List.filter_map]
  have hp : ((fun z => z.name == zoneNameOf hostname ++ ".") ∘ upsertZone zid n rtype ttl v)
      = (fun z => z.name == zoneNameOf hostname ++ ".") := by
    funext z
    simp [Function.comp, upsertZone_name]
  rw [hp, List.head?_map]
  cases (st.filter (fun z => z.name == zoneNameOf hostname ++ ".")).head? with
  | none => rfl
  | some z => simp [upsertZone_id]

theorem findZone_applyUpsert (st : R53State) (zid n rtype : String) (ttl : Nat)
    (v : List String) :
    findZone (applyUpsert st zid n rtype ttl v) zid =
      (findZone st zid).map (fun z =>
        { z with records :=
            (z.records.filter (fun r => !(r.name == n ++ "." && r.type == rtype))) ++
              [⟨n ++ ".", rtype, ttl, v⟩] }) := by
  unfold findZone applyUpsert
  rw [List.find?_map]
  have hp : ((fun z => z.id == zid) ∘ upsertZone zid n rtype ttl v)
      = (fun z => z.id == zid) := by
    funext z
    simp [Function.comp, upsertZone_id]
  rw [hp]
  cases hf : st.find? (fun z => z.id == zid) with
  | none => rfl
  | some z =>
      have hz := List.find?_some hf
      simp only [beq_iff_eq] at hz
      simp [upsertZone, hz]

theorem afterFirstDot_spec : ∀ (l t : List Char), afterFirstDot l = some t →
    ∃ w, ('.' ∉ w) ∧ l = w ++ '.' :: t := by
  intro l
  induction l with
  | nil => intro t h; simp [afterFirstDot] at h
  | cons c cs ih =>
      intro t h
      by_cases hc : c = '.'
      · subst hc
        simp [afterFirstDot] at h
        exact ⟨[], by simp, by simp [h]⟩
      · simp only [afterFirstDot, if_neg hc] at h
        obtain ⟨w, hw, hl⟩ := ih t h
        refine ⟨c :: w, ?_, by simp [hl]⟩
        intro hmem
        rcases List.mem_cons.mp hmem with h1 | h1
        · exact hc h1.symm
        · exact hw h1

theorem afterFirstDot_eq_some : ∀ (l : List Char), '.' ∈ l →
    ∃ t, afterFirstDot l = some t
  | [], h => by simp at h
  | c :: cs, h => by
      by_cases hc : c = '.'
      · exact ⟨cs, by simp [afterFirstDot, hc]⟩
      · have hmem : '.' ∈ cs := by
          rcases List.mem_cons.mp h with h1 | h1
          · exact absurd h1.symm hc
          · exact h1
        obtain ⟨t, ht⟩ := afterFirstDot_eq_some cs hmem
        exact ⟨t, by simp [afterFirstDot, hc, ht]⟩

theorem zoneNameOf_data (hostname : String) (t : List Char)
    (h : afterFirstDot hostname.data = some t) :
    (zoneNameOf hostname).data = t := by
  simp [zoneNameOf, h]

theorem zoneName_strips_one_label (hostname : String) (h : '.' ∈ hostname.data) :
    ∃ w, ('.' ∉ w) ∧ hostname.data = w ++ '.' :: (zoneNameOf hostname).data := by
  obtain ⟨t, ht⟩ := afterFirstDot_eq_some hostname.data h
  obtain ⟨w, hw, hl⟩ := afterFirstDot_spec hostname.data t ht
  exact ⟨w, hw, by rw [zoneNameOf_data hostname t ht]; exact hl⟩

theorem zone_resolution_ok (st : R53State) (hostname : String) (zid : String)
    (h : get_hosted_zone_id_from_fqdn st hostname = .ok zid) :
    ∃ z, z ∈ st ∧ z.id = zid ∧ z.name = zoneNameOf hostname ++ "." := by
  unfold get_hosted_zone_id_from_fqdn at h
  cases hh : (st.filter (fun z => z.name == zoneNameOf hostname ++ ".")).head? with
  | none => rw [hh] at h; simp at h
  | some z =>
      rw [hh] at h
      obtain ⟨ys, hys⟩ := List.head?_eq_some_iff.mp hh
      have hz : z ∈ st.filter (fun z => z.name == zoneNameOf hostname ++ ".") := by
        rw [hys]
        exact List.mem_cons_self _ _
      rw [List.mem_filter] at hz
      refine ⟨z, hz.1, ?_, by simpa using hz.2⟩
      simpa using h

theorem zone_resolution_notfound (st : R53State) (hostname : String)
    (h : ∀ z, z ∈ st → ¬ z.name = zoneNameOf hostname ++ ".") :
    get_hosted_zone_id_from_fqdn st hostname =
      .error (zoneNotFoundResponse (zoneNameOf hostname)) := by
  have hf : st.filter (fun z => z.name == zoneNameOf hostname ++ ".") = [] := by
    rw [List.filter_eq_nil_iff]
    intro z hz
    simpa using h z hz
  simp [get_hosted_zone_id_from_fqdn, hf]

theorem zoneName_keeps_trailing_dot (hostname : String)
    (hlast : hostname.data.getLast? = some '.')
    (hdot : '.' ∈ hostname.data.dropLast) :
    (zoneNameOf hostname).data.getLast? = some '.' := by
  have hmem : '.' ∈ hostname.data := List.mem_of_mem_dropLast hdot
  obtain ⟨t, ht⟩ := afterFirstDot_eq_some hostname.data hmem
  obtain ⟨w, hw, hl⟩ := afterFirstDot_spec hostname.data t ht
  rw [zoneNameOf_data hostname t ht]
  rcases List.eq_nil_or_concat' t with rfl | ⟨t0, a, rfl⟩
  · exfalso
    rw [hl] at hdot
    have : (w ++ ['.']).dropLast = w := List.dropLast_concat
    rw [this] at hdot
    exact hw hdot
  · rw [List.getLast?_concat]
    rw [hl] at hlast
    have hconcat : w ++ '.' :: (t0 ++ [a]) = (w ++ '.' :: t0) ++ [a] := by simp
    rw [hconcat, List.getLast?_concat] at hlast
    exact hlast.symm ▸ rfl

theorem endsTwoDots_concat (c : String) (h : c.data.getLast? = some '.') :
    endsTwoDots (c ++ ".") = true := by
  unfold endsTwoDots
  rw [String.data_append]
  have hdot : (("." : String)).data = ['.'] := rfl
  rw [hdot, List.reverse_append]
  have h2 : c.data.reverse.head? = some '.' := by
    rw [List.head?_reverse]
    exact h
  obtain ⟨ys, hys⟩ := List.head?_eq_some_iff.mp h2
  simp only [List.reverse_cons, List.reverse_nil, List.nil_append, List.cons_append,
    List.singleton_append]
  rw [hys]
  rfl

theorem zone_name_mismatch (z : HostedZone) (c : String)
    (hz : endsTwoDots z.name = false)
    (hc : c.data.getLast? = some '.') :
    ¬ z.name = c ++ "." := by
  intro he
  rw [he, endsTwoDots_concat c hc] at hz
  exact Bool.noConfusion hz

theorem findZone_isSome_of_resolution (st : R53State) (hostname : String) (zid : String)
    (hz : get_hosted_zone_id_from_fqdn st hostname = .ok zid) :
    ∃ z1, findZone st zid = some z1 := by
  obtain ⟨z0, hmem, hid, hname⟩ := zone_resolution_ok st hostname zid hz
  have hsome : (st.find? (fun z => z.id == zid)).isSome := by
    rw [List.find?_isSome]
    exact ⟨z0, hmem, by simp [hid]⟩
  exact Option.isSome_iff_exists.mp hsome

theorem filter_key_upsert (l : List ResourceRecordSet) (p : ResourceRecordSet → Bool)
    (r : ResourceRecordSet) (hr : p r = true) :
    ((l.filter (fun x => !(p x))) ++ [r]).filter p = [r] := by
  rw [List.filter_append, List.filter_filter]
  have hfalse : (fun a => p a && !(p a)) = (fun _ : ResourceRecordSet => false) := by
    funext a
    cases p a <;> rfl
  simp [hfalse, hr]

theorem updateCore_good (req : UpdateRequest) (r53 : R53State) (ip : IPv4) (zid : String)
    (hip : resolveTargetIp req.myip req.headers = .ok ip)
    (hz : get_hosted_zone_id_from_fqdn r53 req.hostname = .ok zid)
    (he : is_existing_record_exists r53 req.hostname zid ip = false) :
    updateCore req r53 =
      (⟨200, "good " ++ ipToString ip, []⟩,
        update_r53_record r53 req.hostname zid ip,
        zoneCalls req.hostname ++ recordCalls req.hostname zid
          ++ [upsertCall req.hostname zid ip]) := by
  simp [updateCore, hip, hz, he]

theorem update_gap_fail (store : Option AdminSecret) (req : UpdateRequest) (ps : ProcState)
    (h : (get_admin_password store ps.cachedPassword).1 = none) :
    update store req ps =
      ⟨internalServerError, ⟨none, ps.r53⟩,
        [ProviderCall.getSecret "dynr53/users/admin"]⟩ := by
  cases hc : ps.cachedPassword with
  | some pw => rw [hc] at h; simp [get_admin_password] at h
  | none =>
      cases store with
      | some sec => rw [hc] at h; simp [get_admin_password] at h
      | none => simp [update, hc, get_admin_password]

theorem updateCore_shape (req : UpdateRequest) (r53 : R53State) :
    ((updateCore req r53).2.1 = r53 ∧
      (updateCore req r53).2.2.filter (fun c => c.isMutation) = []) ∨
    (∃ zid ip, (updateCore req r53).2.1 = update_r53_record r53 req.hostname zid ip ∧
      (updateCore req r53).2.2.filter (fun c => c.isMutation)
        = [upsertCall req.hostname zid ip]) := by
  rcases hres : resolveTargetIp req.myip req.headers with resp | ip
  · rw [updateCore_ip_error req r53 resp hres]
    exact Or.inl ⟨rfl, rfl⟩
  · rcases hz : get_hosted_zone_id_from_fqdn r53 req.hostname with resp | zid
    · rw [updateCore_zone_error req r53 ip resp hres hz]
      refine Or.inl ⟨rfl, ?_⟩
      simp [zoneCalls, ProviderCall.isMutation]
    · cases he : is_existing_record_exists r53 req.hostname zid ip
      · rw [updateCore_good req r53 ip zid hres hz he]
        refine Or.inr ⟨zid, ip, rfl, ?_⟩
        simp [zoneCalls, recordCalls, upsertCall, ProviderCall.isMutation]
      · rw [updateCore_nochg req r53 ip zid hres hz he]
        refine Or.inl ⟨rfl, ?_⟩
        simp [zoneCalls, recordCalls, ProviderCall.isMutation]

theorem update_shape (store : Option AdminSecret) (req : UpdateRequest) (ps : ProcState) :
    ((update store req ps).state.r53 = ps.r53 ∧
      (update store req ps).calls.filter (fun c => c.isMutation) = []) ∨
    (∃ zid ip, (update store req ps).state.r53
        = update_r53_record ps.r53 req.hostname zid ip ∧
      (update store req ps).calls.filter (fun c => c.isMutation)
        = [upsertCall req.hostname zid ip]) := by
  cases hr : (get_admin_password store ps.cachedPassword).1 with
  | none =>
      rw [update_gap_fail store req ps hr]
      exact Or.inl ⟨rfl, rfl⟩
  | some pw =>
      by_cases hok : req.credentials.username = "admin" ∧ req.credentials.password = pw
      · have ha := update_authed store req ps hok.1 (by rw [hr, hok.2])
        rw [ha]
        rcases updateCore_shape req ps.r53 with ⟨h1, h2⟩ | ⟨zid, ip, h1, h2⟩
        · exact Or.inl ⟨h1, by simp [List.filter_append, gap_calls_no_mutation, h2]⟩
        · exact Or.inr ⟨zid, ip, h1,
            by simp [List.filter_append, gap_calls_no_mutation, h2]⟩
      · rw [update_badauth_eq store req ps pw hr hok]
        exact Or.inl ⟨rfl, gap_calls_no_mutation store ps.cachedPassword⟩

/-! Claim theorems. -/

/-- C10: authentication compares the provided username against the fixed
literal `admin` and never consults the `username` field stored in the
fetched secret, so a request authenticates exactly when the provided
username equals `admin` and the provided password equals the secret's
`password` field. -/
theorem auth_username_is_literal_admin (sec : AdminSecret) (c : HTTPBasicCredentials)
    (cache : Option String) :
    (validate_credentials sec.password c = Except.ok () ↔
      (c.username = "admin" ∧ c.password = sec.password)) ∧
    (∀ u1 u2 : String,
      get_admin_password (some ⟨u1, sec.password⟩) cache =
        get_admin_password (some ⟨u2, sec.password⟩) cache) := by
  constructor
  · constructor
    · intro h
      by_cases h1 : c.username = "admin"
      · by_cases h2 : c.password = sec.password
        · exact ⟨h1, h2⟩
        · exfalso
          have hpw : (sec.password == c.password) = false :=
            beq_eq_false_iff_ne.mpr (fun hh => h2 hh.symm)
          simp [validate_credentials, hpw] at h
      · exfalso
        have hun : ("admin" == c.username) = false :=
          beq_eq_false_iff_ne.mpr (fun hh => h1 hh.symm)
        simp [validate_credentials, hun] at h
    · rintro ⟨h1, h2⟩
      simp [validate_credentials, h1, h2]
  · intro u1 u2
    cases cache <;> rfl

/-- Witness for C10: the stored username field is irrelevant to the fetch,
and `admin` with the secret's password authenticates. -/
theorem auth_username_is_literal_admin_check :
    validate_credentials "pw" ⟨"admin", "pw"⟩ = Except.ok () ∧
    get_admin_password (some ⟨"not-admin", "pw"⟩) none
      = get_admin_password (some ⟨"admin", "pw"⟩) none := by
  constructor
  · exact (auth_username_is_literal_admin ⟨"u", "pw"⟩ ⟨"admin", "pw"⟩ none).1.mpr
      ⟨rfl, rfl⟩
  · exact (auth_username_is_literal_admin ⟨"u", "pw"⟩ ⟨"admin", "pw"⟩ none).2
      "not-admin" "admin"

/-- C8: the credential fetch memoizes successful results for the process
lifetime — after a success, a later fetch returns the cached password with
no secret-store call, whatever the store's condition by then — while a
failed fetch leaves the cache empty, so a subsequent fetch contacts the
store again. -/
theorem credential_fetch_memoization (store store2 : Option AdminSecret)
    (cache : Option String) :
    (∀ pw cache2 calls, get_admin_password store cache = (some pw, cache2, calls) →
      get_admin_password store2 cache2 = (some pw, cache2, [])) ∧
    (∀ cache2 calls, get_admin_password store cache = (none, cache2, calls) →
      cache2 = none ∧
      ∀ sec : AdminSecret, get_admin_password (some sec) cache2 =
        (some sec.password, some sec.password,
          [ProviderCall.getSecret "dynr53/users/admin"])) := by
  constructor
  · intro pw cache2 calls h
    cases cache with
    | some pw0 =>
        simp only [get_admin_password, Prod.mk.injEq, Option.some.injEq] at h
        obtain ⟨h1, h2, h3⟩ := h
        subst h1
        subst h2
        rfl
    | none =>
        cases store with
        | some sec =>
            simp only [get_admin_password, Prod.mk.injEq, Option.some.injEq] at h
            obtain ⟨h1, h2, h3⟩ := h
            subst h1
            subst h2
            rfl
        | none => simp [get_admin_password] at h
  · intro cache2 calls h
    cases cache with
    | some pw0 => simp [get_admin_password] at h
    | none =>
        cases store with
        | some sec => simp [get_admin_password] at h
        | none =>
            simp only [get_admin_password, Prod.mk.injEq, true_and] at h
            obtain ⟨h1, h2⟩ := h
            subst h1
            exact ⟨rfl, fun sec => rfl⟩

/-- Witness for C8: after a successful fetch the cached password is served
with no store call even when the store is down; after a failed fetch the
next fetch hits the store and succeeds. -/
theorem credential_fetch_memoization_check :
    get_admin_password none (some "pw") = (some "pw", some "pw", []) ∧
    get_admin_password (some ⟨"admin", "s2"⟩) none =
      (some "s2", some "s2", [ProviderCall.getSecret "dynr53/users/admin"]) := by
  constructor
  · exact (credential_fetch_memoization (some ⟨"admin", "pw"⟩) none none).1
      "pw" (some "pw") [ProviderCall.getSecret "dynr53/users/admin"] (by decide)
  · exact ((credential_fetch_memoization none (some ⟨"admin", "s2"⟩) none).2
      none [ProviderCall.getSecret "dynr53/users/admin"] (by decide)).2 ⟨"admin", "s2"⟩

/-- C3: a request with a wrong username or a wrong password (either varied
independently) yields HTTP 401 with detail `badauth` and a
`WWW-Authenticate: Basic` header; no DNS-provider call of any kind is made
and the provider state is untouched. -/
theorem badauth_no_provider_calls (store : Option AdminSecret) (req : UpdateRequest)
    (ps : ProcState) (pw : String)
    (hpw : (get_admin_password store ps.cachedPassword).1 = some pw)
    (hbad : req.credentials.username ≠ "admin" ∨ req.credentials.password ≠ pw) :
    (update store req ps).response = badauthResponse ∧
    (update store req ps).response.status = 401 ∧
    (update store req ps).response.body = "badauth" ∧
    ("WWW-Authenticate", "Basic") ∈ (update store req ps).response.headers ∧
    (update store req ps).calls.filter (fun c => c.isDnsCall) = [] ∧
    (update store req ps).state.r53 = ps.r53 := by
  have hb : ¬(req.credentials.username = "admin" ∧ req.credentials.password = pw) := by
    rintro ⟨h1, h2⟩
    rcases hbad with h | h
    · exact h h1
    · exact h h2
  rw [update_badauth_eq store req ps pw hpw hb]
  refine ⟨rfl, rfl, rfl, ?_, gap_calls_no_dns store ps.cachedPassword, rfl⟩
  simp [badauthResponse]

/-- Witness for C3: a wrong username and, independently, a wrong password
each produce the `badauth` response with no DNS call. -/
theorem badauth_no_provider_calls_check :
    (update (some ⟨"admin", "pw"⟩)
        ⟨"www.example.com", some "1.2.3.4", [], ⟨"mallory", "pw"⟩⟩
        ⟨none, [⟨"Z1", "example.com.", []⟩]⟩).response = badauthResponse ∧
    (update (some ⟨"admin", "pw"⟩)
        ⟨"www.example.com", some "1.2.3.4", [], ⟨"admin", "wrong"⟩⟩
        ⟨none, [⟨"Z1", "example.com.", []⟩]⟩).calls.filter (fun c => c.isDnsCall)
      = [] := by
  constructor
  · exact (badauth_no_provider_calls (some ⟨"admin", "pw"⟩)
      ⟨"www.example.com", some "1.2.3.4", [], ⟨"mallory", "pw"⟩⟩
      ⟨none, [⟨"Z1", "example.com.", []⟩]⟩ "pw" (by decide) (Or.inl (by decide))).1
  · exact (badauth_no_provider_calls (some ⟨"admin", "pw"⟩)
      ⟨"www.example.com", some "1.2.3.4", [], ⟨"admin", "wrong"⟩⟩
      ⟨none, [⟨"Z1", "example.com.", []⟩]⟩ "pw" (by decide)
      (Or.inr (by decide))).2.2.2.2.1

/-- C7: an authenticated request carrying neither the `myip` parameter nor
the forwarding header gets HTTP 400, and the DNS provider is never queried
for zones or records. -/
theorem no_ip_http400_no_dns_queries (store : Option AdminSecret) (req : UpdateRequest)
    (ps : ProcState)
    (hu : req.credentials.username = "admin")
    (hp : (get_admin_password store ps.cachedPassword).1 = some req.credentials.password)
    (hmy : req.myip = none)
    (hxf : headerGet req.headers xForwardedFor = none) :
    (update store req ps).response = ipUndeterminableResponse ∧
    (update store req ps).response.status = 400 ∧
    (update store req ps).calls.filter (fun c => c.isDnsCall) = [] ∧
    (update store req ps).state.r53 = ps.r53 := by
  have hip : resolveTargetIp req.myip req.headers = .error ipUndeterminableResponse := by
    rw [hmy]
    simp [resolveTargetIp, get_ip_from_headers, hxf]
  rw [update_authed store req ps hu hp, updateCore_ip_error req ps.r53 _ hip]
  refine ⟨rfl, rfl, ?_, rfl⟩
  simp [List.filter_append, gap_calls_no_dns]

/-- Witness for C7: a concrete authenticated request with no `myip` and no
forwarding header. -/
theorem no_ip_http400_no_dns_queries_check :
    (update (some ⟨"admin", "pw"⟩)
        ⟨"www.example.com", none, [("host", "example")], ⟨"admin", "pw"⟩⟩
        ⟨none, [⟨"Z1", "example.com.", []⟩]⟩).response = ipUndeterminableResponse ∧
    (update (some ⟨"admin", "pw"⟩)
        ⟨"www.example.com", none, [("host", "example")], ⟨"admin", "pw"⟩⟩
        ⟨none, [⟨"Z1", "example.com.", []⟩]⟩).calls.filter (fun c => c.isDnsCall)
      = [] := by
  have h := no_ip_http400_no_dns_queries (some ⟨"admin", "pw"⟩)
    ⟨"www.example.com", none, [("host", "example")], ⟨"admin", "pw"⟩⟩
    ⟨none, [⟨"Z1", "example.com.", []⟩]⟩ rfl (by decide) rfl (by decide)
  exact ⟨h.1, h.2.2.1⟩

/-- C4: zone resolution strips exactly one leftmost label from the
hostname to obtain the candidate zone name and selects a hosted zone whose
name (trailing dot included) exactly equals the candidate; when no zone
equals the candidate — including a hostname whose zone would require
stripping more than one label — it fails with the HTTP 400 zone-not-found
error. -/
theorem zone_resolution_single_label_exact (st : R53State) (hostname : String)
    (hdot : '.' ∈ hostname.data) :
    (∃ w, ('.' ∉ w) ∧ hostname.data = w ++ '.' :: (zoneNameOf hostname).data) ∧
    (∀ zid, get_hosted_zone_id_from_fqdn st hostname = Except.ok zid →
      ∃ z, z ∈ st ∧ z.id = zid ∧ z.name = zoneNameOf hostname ++ ".") ∧
    ((∀ z, z ∈ st → ¬ z.name = zoneNameOf hostname ++ ".") →
      get_hosted_zone_id_from_fqdn st hostname =
        Except.error (zoneNotFoundResponse (zoneNameOf hostname)) ∧
      (zoneNotFoundResponse (zoneNameOf hostname)).status = 400) := by
  refine ⟨zoneName_strips_one_label hostname hdot, ?_, ?_⟩
  · intro zid h
    exact zone_resolution_ok st hostname zid h
  · intro h
    exact ⟨zone_resolution_notfound st hostname h, rfl⟩

/-- Witness for C4: against only a registered `example.com` zone, the
hostname `a.b.example.com` — whose zone would need two labels stripped —
fails with the 400 zone-not-found error, and its candidate is obtained by
one label strip. -/
theorem zone_resolution_single_label_exact_check :
    (∃ w, ('.' ∉ w) ∧
      ("a.b.example.com" : String).data
        = w ++ '.' :: (zoneNameOf "a.b.example.com").data) ∧
    get_hosted_zone_id_from_fqdn [⟨"Z1", "example.com.", []⟩] "a.b.example.com"
      = Except.error (zoneNotFoundResponse (zoneNameOf "a.b.example.com")) := by
  have h := zone_resolution_single_label_exact [⟨"Z1", "example.com.", []⟩]
    "a.b.example.com" (by decide)
  exact ⟨h.1, (h.2.2 (by decide)).1⟩

/-- C9: for a hostname that already ends with a trailing dot, the candidate
zone name keeps that dot and the exact-match filter appends a further dot,
so — since Route 53 zone names never end in two dots — resolution fails and
the request gets the HTTP 400 zone-not-found response even when the
corresponding hosted zone is registered. -/
theorem trailing_dot_hostname_zone_not_found (store : Option AdminSecret)
    (req : UpdateRequest) (ps : ProcState) (ip : IPv4)
    (hu : req.credentials.username = "admin")
    (hp : (get_admin_password store ps.cachedPassword).1 = some req.credentials.password)
    (hip : resolveTargetIp req.myip req.headers = Except.ok ip)
    (hlast : req.hostname.data.getLast? = some '.')
    (hdot : '.' ∈ req.hostname.data.dropLast)
    (hzones : ∀ z, z ∈ ps.r53 → endsTwoDots z.name = false) :
    (zoneNameOf req.hostname).data.getLast? = some '.' ∧
    (update store req ps).response = zoneNotFoundResponse (zoneNameOf req.hostname) ∧
    (update store req ps).response.status = 400 ∧
    (update store req ps).state.r53 = ps.r53 := by
  have hcand := zoneName_keeps_trailing_dot req.hostname hlast hdot
  have hz : get_hosted_zone_id_from_fqdn ps.r53 req.hostname =
      Except.error (zoneNotFoundResponse (zoneNameOf req.hostname)) :=
    zone_resolution_notfound ps.r53 req.hostname
      (fun z hzm => zone_name_mismatch z (zoneNameOf req.hostname) (hzones z hzm) hcand)
  rw [update_authed store req ps hu hp,
    updateCore_zone_error req ps.r53 ip
      (zoneNotFoundResponse (zoneNameOf req.hostname)) hip hz]
  exact ⟨hcand, rfl, rfl, rfl⟩

/-- Witness for C9: `www.example.com.` fails with zone-not-found although
the zone `example.com.` is registered. -/
theorem trailing_dot_hostname_zone_not_found_check :
    (update (some ⟨"admin", "pw"⟩)
        ⟨"www.example.com.", some "1.2.3.4", [], ⟨"admin", "pw"⟩⟩
        ⟨none, [⟨"Z1", "example.com.", []⟩]⟩).response
      = zoneNotFoundResponse (zoneNameOf "www.example.com.") := by
  exact (trailing_dot_hostname_zone_not_found (some ⟨"admin", "pw"⟩)
    ⟨"www.example.com.", some "1.2.3.4", [], ⟨"admin", "pw"⟩⟩
    ⟨none, [⟨"Z1", "example.com.", []⟩]⟩ ⟨1, 2, 3, 4⟩ rfl (by decide) rfl
    (by decide) (by decide) (by decide)).2.1

/-- C2: an authenticated request whose zone resolves and which has no
existing record matching the target IP issues exactly one UPSERT — a
single-value A record for the hostname with TTL 60 — and responds 200
`good <ip>`; afterwards the zone holds exactly one A record set for the
hostname, with value `<ip>` and TTL 60. -/
theorem authenticated_new_ip_upserts_good (store : Option AdminSecret)
    (req : UpdateRequest) (ps : ProcState) (ip : IPv4) (zid : String)
    (hu : req.credentials.username = "admin")
    (hp : (get_admin_password store ps.cachedPassword).1 = some req.credentials.password)
    (hip : resolveTargetIp req.myip req.headers = Except.ok ip)
    (hz : get_hosted_zone_id_from_fqdn ps.r53 req.hostname = Except.ok zid)
    (hne : is_existing_record_exists ps.r53 req.hostname zid ip = false) :
    (update store req ps).response = ⟨200, "good " ++ ipToString ip, []⟩ ∧
    (update store req ps).calls.filter (fun c => c.isMutation)
      = [ProviderCall.changeResourceRecordSets zid "UPSERT" req.hostname "A" 60
          [ipToString ip]] ∧
    (update store req ps).state.r53 = update_r53_record ps.r53 req.hostname zid ip ∧
    ∃ z, findZone (update store req ps).state.r53 zid = some z ∧
      z.records.filter (fun r => r.name == req.hostname ++ "." && r.type == "A")
        = [⟨req.hostname ++ ".", "A", 60, [ipToString ip]⟩] := by
  rw [update_authed store req ps hu hp, updateCore_good req ps.r53 ip zid hip hz hne]
  refine ⟨rfl, ?_, rfl, ?_⟩
  · rw [List.filter_append, gap_calls_no_mutation]
    simp [zoneCalls, recordCalls, upsertCall, ProviderCall.isMutation, dns_ttl]
  · obtain ⟨z1, hz1⟩ := findZone_isSome_of_resolution ps.r53 req.hostname zid hz
    refine ⟨{ z1 with records :=
        (z1.records.filter
          (fun r => !(r.name == req.hostname ++ "." && r.type == "A"))) ++
          [⟨req.hostname ++ ".", "A", dns_ttl, [ipToString ip]⟩] }, ?_, ?_⟩
    · rw [update_r53_record, findZone_applyUpsert, hz1]
      rfl
    · have hfk := filter_key_upsert z1.records
        (fun r => r.name == req.hostname ++ "." && r.type == "A")
        ⟨req.hostname ++ ".", "A", dns_ttl, [ipToString ip]⟩ (by simp)
      simp only [dns_ttl] at hfk
      exact hfk

/-- Witness for C2: a fresh hostname in a registered zone is upserted and
answered with `good`. -/
theorem authenticated_new_ip_upserts_good_check :
    (update (some ⟨"admin", "pw"⟩)
        ⟨"www.example.com", some "1.2.3.4", [], ⟨"admin", "pw"⟩⟩
        ⟨none, [⟨"Z1", "example.com.", []⟩]⟩).response
      = ⟨200, "good 1.2.3.4", []⟩ ∧
    (update (some ⟨"admin", "pw"⟩)
        ⟨"www.example.com", some "1.2.3.4", [], ⟨"admin", "pw"⟩⟩
        ⟨none, [⟨"Z1", "example.com.", []⟩]⟩).calls.filter (fun c => c.isMutation)
      = [ProviderCall.changeResourceRecordSets "Z1" "UPSERT" "www.example.com" "A" 60
          ["1.2.3.4"]] := by
  have h := authenticated_new_ip_upserts_good (some ⟨"admin", "pw"⟩)
    ⟨"www.example.com", some "1.2.3.4", [], ⟨"admin", "pw"⟩⟩
    ⟨none, [⟨"Z1", "example.com.", []⟩]⟩ ⟨1, 2, 3, 4⟩ "Z1" rfl (by decide) rfl rfl
    (by decide)
  exact ⟨h.1, h.2.1⟩

/-- C1: an authenticated request whose hostname already has an A record
whose value string-equals the canonical textual form of the target IP gets
`nochg <ip>` with no mutating provider call; and when the zone resolves
with no matching record, the run answers `good <ip>` and an immediate
second run of the same request answers `nochg <ip>`. -/
theorem existing_match_nochg_and_idempotent (store : Option AdminSecret)
    (req : UpdateRequest) (ps : ProcState) (ip : IPv4)
    (hu : req.credentials.username = "admin")
    (hp : (get_admin_password store ps.cachedPassword).1 = some req.credentials.password)
    (hip : resolveTargetIp req.myip req.headers = Except.ok ip) :
    ((∃ zid z r, get_hosted_zone_id_from_fqdn ps.r53 req.hostname = Except.ok zid ∧
        findZone ps.r53 zid = some z ∧ r ∈ z.records ∧
        r.name = req.hostname ++ "." ∧ r.type = "A" ∧ ipToString ip ∈ r.values) →
      ((update store req ps).response = ⟨200, "nochg " ++ ipToString ip, []⟩ ∧
       (update store req ps).calls.filter (fun c => c.isMutation) = [] ∧
       (update store req ps).state.r53 = ps.r53)) ∧
    (∀ zid, get_hosted_zone_id_from_fqdn ps.r53 req.hostname = Except.ok zid →
      is_existing_record_exists ps.r53 req.hostname zid ip = false →
      ((update store req ps).response = ⟨200, "good " ++ ipToString ip, []⟩ ∧
       (update store req (update store req ps).state).response
         = ⟨200, "nochg " ++ ipToString ip, []⟩)) := by
  constructor
  · rintro ⟨zid, z, r, hz, hfz, hrmem, hrname, hrtype, hval⟩
    have he : is_existing_record_exists ps.r53 req.hostname zid ip = true := by
      simp only [is_existing_record_exists]
      rw [hfz, List.any_eq_true]
      refine ⟨r, ?_, ?_⟩
      · rw [List.mem_filter]
        exact ⟨hrmem, by simp [hrname]⟩
      · rw [List.any_eq_true]
        exact ⟨ipToString ip, hval, by simp⟩
    rw [update_authed store req ps hu hp, updateCore_nochg req ps.r53 ip zid hip hz he]
    refine ⟨rfl, ?_, rfl⟩
    rw [List.filter_append, gap_calls_no_mutation]
    simp [zoneCalls, recordCalls, ProviderCall.isMutation]
  · intro zid hz hne
    have hst : (update store req ps).state
        = ⟨some req.credentials.password,
            update_r53_record ps.r53 req.hostname zid ip⟩ := by
      rw [update_authed store req ps hu hp, updateCore_good req ps.r53 ip zid hip hz hne]
    constructor
    · rw [update_authed store req ps hu hp, updateCore_good req ps.r53 ip zid hip hz hne]
    · have hc2 : (update store req ps).state.cachedPassword
          = some req.credentials.password := by rw [hst]
      have hr2 : (update store req ps).state.r53
          = update_r53_record ps.r53 req.hostname zid ip := by rw [hst]
      have hp2 : (get_admin_password store
          (update store req ps).state.cachedPassword).1
          = some req.credentials.password := by
        rw [hc2]
        rfl
      have hz2 : get_hosted_zone_id_from_fqdn
          (update_r53_record ps.r53 req.hostname zid ip) req.hostname
          = Except.ok zid := by
        rw [update_r53_record, zoneId_applyUpsert]
        exact hz
      obtain ⟨z1, hz1⟩ := findZone_isSome_of_resolution ps.r53 req.hostname zid hz
      have he2 : is_existing_record_exists
          (update_r53_record ps.r53 req.hostname zid ip) req.hostname zid ip
          = true := by
        simp only [is_existing_record_exists]
        rw [update_r53_record, findZone_applyUpsert, hz1, List.any_eq_true]
        refine ⟨⟨req.hostname ++ ".", "A", dns_ttl, [ipToString ip]⟩, ?_, ?_⟩
        · rw [List.mem_filter]
          constructor
          · exact List.mem_append_right _ (List.mem_singleton.mpr rfl)
          · simp
        · simp
      rw [update_authed store req ((update store req ps).state) hu hp2, hr2,
        updateCore_nochg req (update_r53_record ps.r53 req.hostname zid ip)
          ip zid hip hz2 he2]

/-- Witness for C1: a matching pre-existing record answers `nochg`; on a
fresh zone the same request answers `good` and then `nochg`. -/
theorem existing_match_nochg_and_idempotent_check :
    (update (some ⟨"admin", "pw"⟩)
        ⟨"www.example.com", some "1.2.3.4", [], ⟨"admin", "pw"⟩⟩
        ⟨none, [⟨"Z1", "example.com.",
          [⟨"www.example.com.", "A", 60, ["1.2.3.4"]⟩]⟩]⟩).response
      = ⟨200, "nochg 1.2.3.4", []⟩ ∧
    (update (some ⟨"admin", "pw"⟩)
        ⟨"www.example.com", some "1.2.3.4", [], ⟨"admin", "pw"⟩⟩
        ⟨none, [⟨"Z1", "example.com.", []⟩]⟩).response
      = ⟨200, "good 1.2.3.4", []⟩ ∧
    (update (some ⟨"admin", "pw"⟩)
        ⟨"www.example.com", some "1.2.3.4", [], ⟨"admin", "pw"⟩⟩
        (update (some ⟨"admin", "pw"⟩)
          ⟨"www.example.com", some "1.2.3.4", [], ⟨"admin", "pw"⟩⟩
          ⟨none, [⟨"Z1", "example.com.", []⟩]⟩).state).response
      = ⟨200, "nochg 1.2.3.4", []⟩ := by
  have h1 := (existing_match_nochg_and_idempotent (some ⟨"admin", "pw"⟩)
    ⟨"www.example.com", some "1.2.3.4", [], ⟨"admin", "pw"⟩⟩
    ⟨none, [⟨"Z1", "example.com.",
      [⟨"www.example.com.", "A", 60, ["1.2.3.4"]⟩]⟩]⟩ ⟨1, 2, 3, 4⟩ rfl (by decide)
    rfl).1 ⟨"Z1", ⟨"Z1", "example.com.", [⟨"www.example.com.", "A", 60, ["1.2.3.4"]⟩]⟩,
      ⟨"www.example.com.", "A", 60, ["1.2.3.4"]⟩, rfl, rfl, by decide, by decide,
      by decide, by decide⟩
  have h2 := (existing_match_nochg_and_idempotent (some ⟨"admin", "pw"⟩)
    ⟨"www.example.com", some "1.2.3.4", [], ⟨"admin", "pw"⟩⟩
    ⟨none, [⟨"Z1", "example.com.", []⟩]⟩ ⟨1, 2, 3, 4⟩ rfl (by decide) rfl).2
    "Z1" rfl (by decide)
  exact ⟨h1.1, h2.1, h2.2⟩

/-- C5: every mutating call the handler ever makes is a single-value A
record UPSERT for the requested hostname with the fixed TTL, and the
provider state is otherwise untouched: each zone keeps its id and name,
and every record set other than the (hostname, A) key is preserved — no
other record type and no other name are ever removed. -/
theorem only_single_value_a_upsert_frame (store : Option AdminSecret)
    (req : UpdateRequest) (ps : ProcState) :
    (∀ c, c ∈ (update store req ps).calls → c.isMutation = true →
      ∃ zid ip, c = upsertCall req.hostname zid ip) ∧
    (update store req ps).state.r53.length = ps.r53.length ∧
    (∀ (i : Nat) (z z' : HostedZone),
      ps.r53[i]? = some z → (update store req ps).state.r53[i]? = some z' →
      z'.id = z.id ∧ z'.name = z.name ∧
      ∀ r : ResourceRecordSet, ¬(r.name = req.hostname ++ "." ∧ r.type = "A") →
        (r ∈ z'.records ↔ r ∈ z.records)) := by
  rcases update_shape store req ps with ⟨h1, h2⟩ | ⟨zid, ip, h1, h2⟩
  · refine ⟨?_, by rw [h1], ?_⟩
    · intro c hc hm
      exfalso
      have hmem : c ∈ (update store req ps).calls.filter (fun c => c.isMutation) :=
        List.mem_filter.mpr ⟨hc, hm⟩
      rw [h2] at hmem
      simp at hmem
    · intro i z z' hzi hzi'
      rw [h1, hzi] at hzi'
      cases hzi'
      exact ⟨rfl, rfl, fun r _ => Iff.rfl⟩
  · refine ⟨?_, ?_, ?_⟩
    · intro c hc hm
      have hmem : c ∈ (update store req ps).calls.filter (fun c => c.isMutation) :=
        List.mem_filter.mpr ⟨hc, hm⟩
      rw [h2, List.mem_singleton] at hmem
      exact ⟨zid, ip, hmem⟩
    · rw [h1, update_r53_record, applyUpsert, List.length_map]
    · intro i z z' hzi hzi'
      rw [h1, update_r53_record, applyUpsert, List.getElem?_map, hzi] at hzi'
      simp only [Option.map_some', Option.some.injEq] at hzi'
      subst hzi'
      refine ⟨upsertZone_id _ _ _ _ _ _, upsertZone_name _ _ _ _ _ _, ?_⟩
      intro r hr
      unfold upsertZone
      by_cases hid : (z.id == zid) = true
      · rw [if_pos hid]
        show r ∈ (z.records.filter
            (fun r => !(r.name == req.hostname ++ "." && r.type == "A"))) ++
            [⟨req.hostname ++ ".", "A", dns_ttl, [ipToString ip]⟩] ↔ r ∈ z.records
        constructor
        · intro hmem
          rcases List.mem_append.mp hmem with hm1 | hm1
          · exact (List.mem_filter.mp hm1).1
          · exfalso
            rw [List.mem_singleton] at hm1
            apply hr
            rw [hm1]
            exact ⟨rfl, rfl⟩
        · intro hmem
          apply List.mem_append_left
          rw [List.mem_filter]
          refine ⟨hmem, ?_⟩
          by_cases hn : r.name = req.hostname ++ "."
          · by_cases ht : r.type = "A"
            · exact absurd ⟨hn, ht⟩ hr
            · simp [hn, ht]
          · simp [hn]
      · rw [if_neg hid]

/-- Witness for C5: updating `www.example.com` leaves the zone's TXT record
set of the same name in place. -/
theorem only_single_value_a_upsert_frame_check :
    (⟨"www.example.com.", "TXT", 300, ["hello"]⟩ : ResourceRecordSet) ∈
      (⟨"Z1", "example.com.",
        [⟨"www.example.com.", "TXT", 300, ["hello"]⟩,
         ⟨"www.example.com.", "A", 60, ["1.2.3.4"]⟩]⟩ : HostedZone).records ↔
    (⟨"www.example.com.", "TXT", 300, ["hello"]⟩ : ResourceRecordSet) ∈
      (⟨"Z1", "example.com.",
        [⟨"www.example.com.", "TXT", 300, ["hello"]⟩]⟩ : HostedZone).records := by
  exact ((only_single_value_a_upsert_frame (some ⟨"admin", "pw"⟩)
    ⟨"www.example.com", some "1.2.3.4", [], ⟨"admin", "pw"⟩⟩
    ⟨none, [⟨"Z1", "example.com.",
      [⟨"www.example.com.", "TXT", 300, ["hello"]⟩]⟩]⟩).2.2
    0 ⟨"Z1", "example.com.", [⟨"www.example.com.", "TXT", 300, ["hello"]⟩]⟩
    ⟨"Z1", "example.com.", [⟨"www.example.com.", "TXT", 300, ["hello"]⟩,
      ⟨"www.example.com.", "A", 60, ["1.2.3.4"]⟩]⟩ (by decide) (by decide)).2.2
    ⟨"www.example.com.", "TXT", 300, ["hello"]⟩ (by decide)

/-- C6 (amended): when the `myip` parameter is present the forwarding
header plays no role at all; when `myip` is absent, the ENTIRE value of
the `X-Forwarded-For` header is parsed as the target IP — a value that is
a single IP literal behaves exactly like an explicit `myip` of that value,
while an unparsable value (such as a comma-separated list) escapes as an
unhandled server error rather than contributing its first element. -/
theorem target_ip_source (store : Option AdminSecret) (req : UpdateRequest)
    (ps : ProcState) :
    (∀ s, req.myip = some s →
      ∀ hs, update store req ps = update store { req with headers := hs } ps) ∧
    (∀ v, req.myip = none → headerGet req.headers xForwardedFor = some v →
      ((req.credentials.username = "admin" →
        (get_admin_password store ps.cachedPassword).1
          = some req.credentials.password →
        parseIPv4 v = none →
        (update store req ps).response = internalServerError ∧
        (update store req ps).calls.filter (fun c => c.isDnsCall) = [] ∧
        (update store req ps).state.r53 = ps.r53) ∧
       (∀ ip, parseIPv4 v = some ip →
        update store req ps = update store { req with myip := some v } ps))) := by
  constructor
  · intro s hmy hs
    have hcore : updateCore req ps.r53
        = updateCore { req with headers := hs } ps.r53 := by
      unfold updateCore
      simp only [resolveTargetIp, hmy]
    unfold update
    rw [hcore]
  · intro v hmy hget
    constructor
    · intro hu hp hparse
      have hip : resolveTargetIp req.myip req.headers
          = .error internalServerError := by
        rw [hmy]
        simp [resolveTargetIp, get_ip_from_headers, hget, hparse]
      rw [update_authed store req ps hu hp, updateCore_ip_error req ps.r53 _ hip]
      refine ⟨rfl, ?_, rfl⟩
      simp [List.filter_append, gap_calls_no_dns]
    · intro ip hparse
      have hcore : updateCore req ps.r53
          = updateCore { req with myip := some v } ps.r53 := by
        unfold updateCore
        simp only [resolveTargetIp, hmy]
        simp [get_ip_from_headers, hget, hparse]
      unfold update
      rw [hcore]

/-- Witness for C6: with `myip` present the header is ignored outright, and
a single-IP header value behaves exactly like an explicit `myip`. -/
theorem target_ip_source_check :
    update (some ⟨"admin", "pw"⟩)
        ⟨"www.example.com", some "9.9.9.9", [("x-forwarded-for", "8.8.8.8")],
          ⟨"admin", "pw"⟩⟩ ⟨none, [⟨"Z1", "example.com.", []⟩]⟩
      = update (some ⟨"admin", "pw"⟩)
        ⟨"www.example.com", some "9.9.9.9", [], ⟨"admin", "pw"⟩⟩
        ⟨none, [⟨"Z1", "example.com.", []⟩]⟩ ∧
    update (some ⟨"admin", "pw"⟩)
        ⟨"www.example.com", none, [("x-forwarded-for", "8.8.8.8")], ⟨"admin", "pw"⟩⟩
        ⟨none, [⟨"Z1", "example.com.", []⟩]⟩
      = update (some ⟨"admin", "pw"⟩)
        ⟨"www.example.com", some "8.8.8.8", [("x-forwarded-for", "8.8.8.8")],
          ⟨"admin", "pw"⟩⟩ ⟨none, [⟨"Z1", "example.com.", []⟩]⟩ := by
  constructor
  · exact (target_ip_source (some ⟨"admin", "pw"⟩)
      ⟨"www.example.com", some "9.9.9.9", [("x-forwarded-for", "8.8.8.8")],
        ⟨"admin", "pw"⟩⟩ ⟨none, [⟨"Z1", "example.com.", []⟩]⟩).1 "9.9.9.9" rfl []
  · exact ((target_ip_source (some ⟨"admin", "pw"⟩)
      ⟨"www.example.com", none, [("x-forwarded-for", "8.8.8.8")], ⟨"admin", "pw"⟩⟩
      ⟨none, [⟨"Z1", "example.com.", []⟩]⟩).2 "8.8.8.8" rfl (by decide)).2
      ⟨8, 8, 8, 8⟩ (by decide)

/-- C6 counterexample: with header value `1.2.3.4, 5.6.7.8` and no `myip`,
the spec's "first value" is the valid literal `1.2.3.4`, yet the handler
parses the whole header value, fails, and answers HTTP 500 — whereas
supplying that first value explicitly yields `good 1.2.3.4`. -/
theorem target_ip_first_value_counterexample :
    specFirstForwardedValue "1.2.3.4, 5.6.7.8" = "1.2.3.4" ∧
    parseIPv4 "1.2.3.4" = some ⟨1, 2, 3, 4⟩ ∧
    parseIPv4 "1.2.3.4, 5.6.7.8" = none ∧
    (update (some ⟨"admin", "pw"⟩)
        ⟨"www.example.com", none, [("x-forwarded-for", "1.2.3.4, 5.6.7.8")],
          ⟨"admin", "pw"⟩⟩
        ⟨none, [⟨"Z1", "example.com.", []⟩]⟩).response = internalServerError ∧
    (update (some ⟨"admin", "pw"⟩)
        ⟨"www.example.com", some "1.2.3.4", [], ⟨"admin", "pw"⟩⟩
        ⟨none, [⟨"Z1", "example.com.", []⟩]⟩).response
      = ⟨200, "good 1.2.3.4", []⟩ := by
  exact ⟨by decide, by decide, by decide, by decide, by decide⟩

end Dynr53
